import Mathlib

/-!
Verification development for the `ydiskarc` disk-archiving tool
(`ydiskarc/cmds/processor.py`).  The definitions below are a shallow
embedding of the processor's data model and operations: byte strings are
`List Nat`, the local filesystem is an existence predicate
`String → Bool`, HTTP responses and remote directory listings are explicit
inductive data, and each stateful operation is embedded as a function
producing an explicit trace of observable events.
-/

namespace Ydiskarc

/-! ## Path handling

`processor.py` builds local paths with
`arr = [output]; arr.extend([i.rstrip() for i in path.split("/") if i.strip()])`
followed by `os.path.join(*arr)` (lines 600-604, 513-519, 665-671).
We model Python's `str.split("/")`, `str.rstrip()`, the truthiness of
`str.strip()`, and POSIX `os.path.join` directly on character lists, so
everything evaluates by kernel reduction.
-/

/-- The whitespace characters stripped by Python's `str.strip`/`str.rstrip`
(ASCII subset; the processor's inputs are remote path strings). -/
def pyWhitespace (c : Char) : Bool :=
  c = ' ' || c = '\t' || c = '\n' || c = '\r' || c = '\x0b' || c = '\x0c'

/-- Python `s.split("/")` on a character list: splits at every `'/'`,
keeping empty segments (so `"a//b"` yields `["a", "", "b"]`). -/
def splitSlashChars : List Char → List (List Char)
  | [] => [[]]
  | c :: rest =>
    if c = '/' then [] :: splitSlashChars rest
    else
      match splitSlashChars rest with
      | g :: gs => (c :: g) :: gs
      | [] => [[c]]

/-- Python `s.split("/")` on strings. -/
def splitOnSlash (s : String) : List String :=
  (splitSlashChars s.toList).map (fun cs => String.mk cs)

/-- Python `s.rstrip()`: drop trailing whitespace. -/
def rstripStr (s : String) : String :=
  String.mk ((s.toList.reverse.dropWhile pyWhitespace).reverse)

/-- Truthiness of Python `s.strip()`: true iff `s` contains some
non-whitespace character. -/
def stripTruthy (s : String) : Bool :=
  !(s.toList.filter (fun c => !pyWhitespace c)).isEmpty

/-- `[i.rstrip() for i in path.split("/") if i.strip()]`
(processor.py lines 603, 516, 668). -/
def splitComponents (p : String) : List String :=
  ((splitOnSlash p).filter stripTruthy).map rstripStr

/-- POSIX `os.path.join(a, b)`: an absolute second argument resets the
path; a separator is inserted only when `a` is nonempty and does not
already end in `'/'`. -/
def pathJoin (a b : String) : String :=
  if b.toList.head? = some '/' then b
  else if a.toList = [] ∨ a.toList.getLast? = some '/' then a ++ b
  else a ++ "/" ++ b

/-- `os.path.join(*arr)` folded over a component list.  (Python raises on
an empty argument list; the processor always passes at least the output
root, so the `[]` case is unreachable in the embedding.) -/
def joinPath : List String → String
  | [] => ""
  | a :: rest => rest.foldl pathJoin a

/-- The local path for a remote path string: the output root followed by
the non-blank, right-stripped `'/'`-separated segments (lines 600-604 for
directories, 513-519 and 665-671 for files — the source builds the same
`arr` in all three places). -/
def localTargetPath (output : String) (remotePath : String) : String :=
  joinPath (output :: splitComponents remotePath)

/-- Python `url.rsplit("/", 1)[-1]` (processor.py line 360). -/
def lastSegment (s : String) : String :=
  ((splitOnSlash s).getLastD s)

/-! ## C1: the persisted metadata snapshot

`yd_get_and_store_dir` (lines 613-623) persists the listing response with
`open(metadata_file, "w", encoding="utf8"); f.write(resp.text)`.
`resp.text` is the response *body decoded to text* using the response's
declared (or guessed) encoding with replacement of undecodable bytes, and
the write re-encodes that text as UTF-8.  We model the body as a byte
list, the two relevant codecs, and the bytes that end up on disk. -/

/-- The text encoding `requests` uses to produce `resp.text`. -/
inductive TextEncoding where
  | utf8 : TextEncoding
  | latin1 : TextEncoding
deriving DecidableEq

/-- UTF-8 encoding of one code point (what Python's
`open(..., encoding="utf8").write` does per character). -/
def utf8EncodeChar (c : Nat) : List Nat :=
  if c < 0x80 then [c]
  else if c < 0x800 then [0xC0 + c / 64, 0x80 + c % 64]
  else if c < 0x10000 then [0xE0 + c / 4096, 0x80 + c / 64 % 64, 0x80 + c % 64]
  else [0xF0 + c / 262144, 0x80 + c / 4096 % 64, 0x80 + c / 64 % 64, 0x80 + c % 64]

/-- UTF-8 encoding of a code-point sequence. -/
def utf8Encode (cs : List Nat) : List Nat :=
  (cs.map utf8EncodeChar).flatten

/-- A UTF-8 continuation byte. -/
def isCont (b : Nat) : Bool := 0x80 ≤ b && b ≤ 0xBF

/-- Number of bytes of the UTF-8 sequence starting the list (1 when the
head is ASCII or is not the start of a complete valid sequence). -/
def utf8SeqLen : List Nat → Nat
  | [] => 0
  | b1 :: rest =>
    if b1 < 0x80 then 1
    else if 0xC2 ≤ b1 && b1 ≤ 0xDF then
      match rest with
      | b2 :: _ => if isCont b2 then 2 else 1
      | [] => 1
    else if 0xE0 ≤ b1 && b1 ≤ 0xEF then
      match rest with
      | b2 :: b3 :: _ => if isCont b2 && isCont b3 then 3 else 1
      | _ => 1
    else if 0xF0 ≤ b1 && b1 ≤ 0xF4 then
      match rest with
      | b2 :: b3 :: b4 :: _ => if isCont b2 && isCont b3 && isCont b4 then 4 else 1
      | _ => 1
    else 1

/-- The code point of the UTF-8 sequence starting the list, `0xFFFD`
(the replacement character, Python's `errors="replace"`) when the head
byte starts no complete valid sequence. -/
def utf8Cp : List Nat → Nat
  | [] => 0xFFFD
  | b1 :: rest =>
    if b1 < 0x80 then b1
    else if 0xC2 ≤ b1 && b1 ≤ 0xDF then
      match rest with
      | b2 :: _ => if isCont b2 then (b1 - 0xC0) * 64 + (b2 - 0x80) else 0xFFFD
      | [] => 0xFFFD
    else if 0xE0 ≤ b1 && b1 ≤ 0xEF then
      match rest with
      | b2 :: b3 :: _ =>
          if isCont b2 && isCont b3 then
            (b1 - 0xE0) * 4096 + (b2 - 0x80) * 64 + (b3 - 0x80)
          else 0xFFFD
      | _ => 0xFFFD
    else if 0xF0 ≤ b1 && b1 ≤ 0xF4 then
      match rest with
      | b2 :: b3 :: b4 :: _ =>
          if isCont b2 && isCont b3 && isCont b4 then
            (b1 - 0xF0) * 262144 + (b2 - 0x80) * 4096 + (b3 - 0x80) * 64 + (b4 - 0x80)
          else 0xFFFD
      | _ => 0xFFFD
    else 0xFFFD

/-- UTF-8 decoding with replacement (Python `bytes.decode("utf-8",
errors="replace")`; overlong and surrogate sequences are not separately
rejected — a refinement no theorem here depends on). -/
def decodeUtf8Replace (bs : List Nat) : List Nat :=
  match bs with
  | [] => []
  | b :: rest =>
      utf8Cp (b :: rest) :: decodeUtf8Replace (List.drop (utf8SeqLen (b :: rest) - 1) rest)
termination_by bs.length
decreasing_by
  simp only [List.length_drop, List.length_cons]
  omega

/-- `resp.text`: the body decoded to a code-point sequence per the
response's text encoding (latin-1 decodes each byte to the equal code
point and never fails). -/
def decodeText : TextEncoding → List Nat → List Nat
  | TextEncoding.latin1, bs => bs
  | TextEncoding.utf8, bs => decodeUtf8Replace bs

/-- The bytes written to `<localDir>/_metadata.json` (lines 618-619):
`resp.text` re-encoded as UTF-8 by the text-mode file object. -/
def persistedMetadataBytes (enc : TextEncoding) (rawBody : List Nat) : List Nat :=
  utf8Encode (decodeText enc rawBody)

/-! ## C3/C10: the resumable downloader `get_file`

`get_file` (lines 76-302).  We embed the observable decisions of a
non-aria2 run: the destination-name resolution (lines 149-170), the
`Range` header of the reissued request (lines 172-179), the file-open
mode (line 250), and the final file size after streaming (lines 249-266).
The local file system appears as the existence flag and on-disk size of
the resolved destination; the ranged response appears as the list of
chunk lengths yielded by `iter_content`. -/

/-- Does the first list start the second? -/
def listStartsWith : List Char → List Char → Bool
  | [], _ => true
  | _ :: _, [] => false
  | p :: ps, c :: cs => p = c && listStartsWith ps cs

/-- The suffix after the first occurrence of `pat`, if any. -/
def afterFirst (pat : List Char) : List Char → Option (List Char)
  | [] => none
  | c :: rest =>
      if listStartsWith pat (c :: rest) then some (List.drop (pat.length - 1) rest)
      else afterFirst pat rest

/-- `filename=` extraction from a `Content-Disposition` header value
(`re.findall("filename=(.+)", ...)[0].strip('"')`, lines 151-158: the
capture is the nonempty remainder after the first `filename=`, with
surrounding quote characters stripped; the latin-1/UTF-8 re-decode of
the matched value is elided — no theorem depends on it, and C10 shows
FullFetch never reaches this branch). -/
def parseCDFilename (header : String) : Option String :=
  match afterFirst "filename=".toList header.toList with
  | some (c :: tl) =>
      some (String.mk
        ((((c :: tl).dropWhile (fun ch => ch = '"')).reverse.dropWhile
            (fun ch => ch = '"')).reverse))
  | _ => none

/-- Destination-file resolution of `get_file` (lines 149-170): an
explicit `filename` wins; otherwise the `Content-Disposition` header's
`filename=` token; otherwise the URL's last path segment; the result is
joined under `filepath` when one is given. -/
def resolveDownloadDest (filepath filename contentDisposition : Option String)
    (url : String) : String :=
  match filename with
  | none =>
      let fname :=
        match contentDisposition with
        | some h => (parseCDFilename h).getD (lastSegment url)
        | none => lastSegment url
      match filepath with
      | some fp => pathJoin fp fname
      | none => fname
  | some fn =>
      match filepath with
      | some fp => pathJoin fp fn
      | none => fn

/-- File-open mode of the streaming write (line 250:
`mode = "ab" if existing_size > 0 and resume else "wb"`). -/
inductive WriteMode where
  | append : WriteMode
  | truncate : WriteMode
deriving DecidableEq

/-- Observable outcome of one (non-aria2) `get_file` body write. -/
structure GetFileRun where
  /-- headers of the reissued GET (empty unless resuming; lines 109, 179). -/
  requestHeaders : List (String × String)
  /-- `existing_size` (line 173-175): 0 unless `resume` and the file exists. -/
  existingSize : Nat
  mode : WriteMode
  /-- bytes on disk after the write loop (lines 251-266). -/
  finalSize : Nat
deriving DecidableEq

/-- The downloader's resume/write behaviour (lines 172-266): `diskSize`
is the size `os.path.getsize` reports for an existing destination,
`chunkSizes` the lengths of the chunks the (possibly ranged) response
delivers.  Empty chunks are not written (line 260) but have length 0, so
the final size is the write-start size plus the delivered byte count. -/
def getFileRun (resume destExists : Bool) (diskSize : Nat)
    (chunkSizes : List Nat) : GetFileRun :=
  let existing_size := if resume && destExists then diskSize else 0
  let headers :=
    if resume && destExists then
      [("Range", "bytes=" ++ toString existing_size ++ "-")]
    else []
  let mode :=
    if 0 < existing_size ∧ resume = true then WriteMode.append
    else WriteMode.truncate
  let startSize := match mode with
    | WriteMode.append => existing_size
    | WriteMode.truncate => 0
  ⟨headers, existing_size, mode, startSize + chunkSizes.sum⟩

/-! ## C9: rate-limit handling

`handle_rate_limit` (lines 62-73) and its call pattern in
`get_file`/`yd_get_full`/`scan_directory_for_stats`/`yd_get_and_store_dir`
(e.g. lines 126-141, 334-336): on a 429 first response the code sleeps
`int(resp.headers.get("Retry-After", 60))` seconds and reissues the same
request once.  The configured exponential `backoff_factor` (line 51)
never reaches this code path. -/

/-- Seconds slept by `handle_rate_limit` (lines 69-73); the header value
is modelled already parsed as a number (the claims concern numeric
headers only; `int()` of a non-numeric header raises, which no claim
exercises). -/
def handleRateLimitSleep (statusCode : Nat) (retryAfter : Option Nat) : Nat :=
  if statusCode = 429 then retryAfter.getD 60 else 0

/-- Observable events of the request/rate-limit retry pattern. -/
inductive RLEvent where
  | request : RLEvent
  | sleep (seconds : Nat) : RLEvent
deriving DecidableEq

/-- The caller pattern around `handle_rate_limit` (e.g. lines 333-336):
issue the GET; if its status is 429, sleep per `handle_rate_limit` and
issue the same GET once more.  `backoffFactor` is the session's
configured exponential backoff factor (line 51), threaded through to
state its irrelevance to this path. -/
def requestWithRateLimitHandling (backoffFactor : Nat) (firstStatus : Nat)
    (retryAfter : Option Nat) : List RLEvent :=
  RLEvent.request ::
    (if firstStatus = 429 then
      [RLEvent.sleep (handleRateLimitSleep firstStatus retryAfter), RLEvent.request]
    else [])

/-! ## The remote directory tree

One listing request for `(public_key, path)` either raises (network
failure after retries, or invalid JSON — both surface as exceptions at
the call sites, lines 466-488 and 575-597) or yields a JSON document
whose `_embedded.items` array holds the entries.  A missing
`_embedded`/`items` key means a leaf/empty directory.  Each item carries
an optional `path` (items without one are skipped, lines 492-493 and
630-631), a `type` of `"dir"`, `"file"` or something else, and for files
an optional `size`.  A `"dir"` item's listing fetch is itself such a
response, so the whole reachable tree is a `Node`; the items of one page
are encoded on the constructor spine (`pageNil`/`pageFile`/`pageDir`/
`pageOther`), with `ItemView`/`ofItems` the list view used to state
order-independence. -/

inductive Node where
  /-- the listing request for this directory raises. -/
  | fetchFail : Node
  /-- a response without `_embedded`/`items`. -/
  | noItems : Node
  /-- end of this page's item array. -/
  | pageNil : Node
  /-- a `type == "file"` item, then the rest of the array. -/
  | pageFile (path : Option String) (size : Option Nat) (rest : Node) : Node
  /-- a `type == "dir"` item with the subtree its own listing fetch
  produces, then the rest of the array. -/
  | pageDir (path : Option String) (sub : Node) (rest : Node) : Node
  /-- an item of any other `type`, then the rest of the array. -/
  | pageOther (path : Option String) (rest : Node) : Node

/-- One item of a listing page, as a list element. -/
inductive ItemView where
  | fileIt (path : Option String) (size : Option Nat) : ItemView
  | dirIt (path : Option String) (sub : Node) : ItemView
  | otherIt (path : Option String) : ItemView

/-- Build a listing page from its item list. -/
def ofItems : List ItemView → Node
  | [] => Node.pageNil
  | ItemView.fileIt p s :: rest => Node.pageFile p s (ofItems rest)
  | ItemView.dirIt p sub :: rest => Node.pageDir p sub (ofItems rest)
  | ItemView.otherIt p :: rest => Node.pageOther p (ofItems rest)

/-! ## C2: the stats scanner

`scan_directory_for_stats` (lines 438-528): fetch the page (raising on
failure), then fold over the items: skip items without `path`; for a
`dir` recurse, a failing subtree caught and contributing nothing (lines
497-506); for a `file` skip when `nofiles`, skip when the mapped local
path exists and `update` is set, else count 1 and add the declared size
when present (lines 508-526).  `fs` is the `os.path.exists` predicate. -/

/-- The scanner's result: `none` models the exception a failed top-level
fetch raises; otherwise `(file_count, total_size)`. -/
def scanNode (fs : String → Bool) (output : String) (update nofiles : Bool) :
    Node → Option (Nat × Nat)
  | Node.fetchFail => none
  | Node.noItems => some (0, 0)
  | Node.pageNil => some (0, 0)
  | Node.pageFile p sz rest =>
      (scanNode fs output update nofiles rest).map (fun acc =>
        (match p with
         | none => (0, 0)
         | some pp =>
             if nofiles then (0, 0)
             else if fs (localTargetPath output pp) && update then (0, 0)
             else (1, sz.getD 0)) + acc)
  | Node.pageDir p sub rest =>
      (scanNode fs output update nofiles rest).map (fun acc =>
        (match p with
         | none => (0, 0)
         | some _ => (scanNode fs output update nofiles sub).getD (0, 0)) + acc)
  | Node.pageOther _ rest => scanNode fs output update nofiles rest

/-! ## C5/C6: the directory walker

`yd_get_and_store_dir` (lines 548-694): fetch the page (raising on
failure), create the local directory, write `_metadata.json`, and — when
`iterative` — process the items: for a `dir` item re-create the parent's
local directory (line 634-638 builds it from the *parent* `path`) and
recurse, a failing child caught and logged (lines 645-659); for a `file`
item skip when `nofiles`, skip when the local file exists and `update`,
else invoke `get_file` (lines 661-692), a download failure caught. -/

/-- Observable walker events. -/
inductive WEvent where
  /-- `os.makedirs(dir, exist_ok=True)`. -/
  | mkdir (localDir : String) : WEvent
  /-- `_metadata.json` written in `localDir`. -/
  | wroteMeta (localDir : String) : WEvent
  /-- `get_file` invoked for the file item with remote path
  `remotePath`, destination `dest`. -/
  | download (remotePath : String) (dest : String) : WEvent
  /-- recursion into the child directory raised and was caught. -/
  | subdirFailed (remotePath : String) : WEvent
deriving DecidableEq

/-- Events of the item loop (lines 628-694) over a page spine, for the
directory whose remote path is `parentPath`.  A child directory's visit
is inlined: its fetch failure yields `subdirFailed`; otherwise its own
`mkdir`/`wroteMeta` prefix followed by its item loop (the recursive
`yd_get_and_store_dir` call of line 647, which always passes
`iterative=iterative` inside the `iterative` branch). -/
def walkItems (fs : String → Bool) (output : String) (update nofiles : Bool)
    (parentPath : String) : Node → List WEvent
  | Node.pageFile p _ rest =>
      (match p with
       | none => []
       | some pp =>
           if nofiles then []
           else
             let dest := localTargetPath output pp
             if fs dest && update then []
             else [WEvent.download pp dest]) ++
      walkItems fs output update nofiles parentPath rest
  | Node.pageDir p sub rest =>
      (match p with
       | none => []
       | some pp =>
           WEvent.mkdir (localTargetPath output parentPath) ::
           (match sub with
            | Node.fetchFail => [WEvent.subdirFailed pp]
            | s =>
                WEvent.mkdir (localTargetPath output pp) ::
                WEvent.wroteMeta (localTargetPath output pp) ::
                walkItems fs output update nofiles pp s)) ++
      walkItems fs output update nofiles parentPath rest
  | Node.pageOther _ rest => walkItems fs output update nofiles parentPath rest
  | _ => []

/-- One `yd_get_and_store_dir` visit: `none` models the exception a
failed fetch raises (lines 575-590); otherwise the local directory is
created (line 607), `_metadata.json` written (lines 613-623), and — only
when `iterative` (line 625) — the items processed. -/
def walkNode (fs : String → Bool) (output : String)
    (update nofiles iterative : Bool) (path : String) (n : Node) :
    Option (List WEvent) :=
  match n with
  | Node.fetchFail => none
  | n =>
      some (WEvent.mkdir (localTargetPath output path) ::
        WEvent.wroteMeta (localTargetPath output path) ::
        (if iterative then walkItems fs output update nofiles path n else []))

/-! ## C7: the sync orchestrator `Project.__store`

Lines 744-798: unless `nofiles`, run the scanner first; a positive count
prints the stats and falls through to the walker; a zero count returns
early (with an "up to date" or "nothing to download" message depending
on `update`); a scanner exception is caught and the walker runs anyway.
With `nofiles` the scanner is skipped entirely and the walker runs. -/

/-- Observable orchestrator events. -/
inductive SEvent where
  | scanned (count total : Nat) : SEvent
  | scanFailed : SEvent
  | walked : SEvent
deriving DecidableEq

/-- The event sequence of `Project.__store` on the tree rooted at
`root`. -/
def storeEvents (fs : String → Bool) (metapath : String)
    (update nofiles : Bool) (root : Node) : List SEvent :=
  if nofiles then [SEvent.walked]
  else
    match scanNode fs metapath update nofiles root with
    | none => [SEvent.scanFailed, SEvent.walked]
    | some (c, t) =>
        if 0 < c then [SEvent.scanned c t, SEvent.walked]
        else [SEvent.scanned c t]

/-- Does an event justify a walker invocation in the sense of claim C7
("the scan reports at least one file or the scan itself fails")? -/
def scanJustifiesWalk : SEvent → Bool
  | SEvent.scanned c _ => decide (0 < c)
  | SEvent.scanFailed => true
  | SEvent.walked => false

/-- Claim C7 as stated, on one invocation's trace: the Walker is invoked
only when the scan reported at least one file or the scan itself
failed. -/
def walkJustified (tr : List SEvent) : Prop :=
  SEvent.walked ∈ tr → tr.any scanJustifiesWalk = true

instance (tr : List SEvent) : Decidable (walkJustified tr) := by
  unfold walkJustified; infer_instance

/-! ## C8/C10: `yd_get_full`

Lines 304-435: create the output directory when `output` is truthy;
fetch the resource metadata and, when `metadata` and `output` are
truthy, write `_metadata.json` there (lines 343-354); default the output
to the URL id and the filename to `"dump.zip"` (lines 360-366); fetch
the download link; when the response has an `href` key invoke
`get_file(href, filepath=output, filename=filename, ...)` (lines
417-427), else raise `ValueError` (lines 428-435) — the spec's
`ResourceError`. -/

/-- Observable FullFetch events. -/
inductive FEvent where
  | madeOutputDir (d : String) : FEvent
  | wroteMetaFile (file : String) : FEvent
  | downloadInvoked (href : String) (filepath : String) (filename : String) : FEvent
  | raisedResourceError : FEvent
deriving DecidableEq

/-- Python truthiness of the optional `output` string. -/
def strTruthy : Option String → Bool
  | some s => !s.isEmpty
  | none => false

/-- The event sequence of `yd_get_full url output filename metadata`
when the download-link response is `linkHref` (`some href` when the JSON
has an `href` key).  The stats printing (lines 368-398) produces no
modelled event. -/
def fullTrace (url : String) (output filename : Option String)
    (metadata : Bool) (linkHref : Option String) : List FEvent :=
  (if strTruthy output then [FEvent.madeOutputDir (output.getD "")] else []) ++
  (if metadata && strTruthy output then
    [FEvent.wroteMetaFile (pathJoin (output.getD "") "_metadata.json")]
  else []) ++
  (let output2 := match output with
    | none => lastSegment url
    | some o => o
   let fname := filename.getD "dump.zip"
   match linkHref with
   | some h => [FEvent.downloadInvoked h output2 fname]
   | none => [FEvent.raisedResourceError])

/-- Does a FullFetch event create a file on disk? -/
def createsFile : FEvent → Bool
  | FEvent.wroteMetaFile _ => true
  | FEvent.downloadInvoked _ _ _ => true
  | _ => false

/-! ## Helper lemmas -/

theorem utf8Encode_ascii (l : List Nat) :
    (∀ b ∈ l, b < 128) → utf8Encode l = l := by
  induction l with
  | nil => intro _; rfl
  | cons b t ih =>
      intro h
      have hb : b < 128 := h b (by simp)
      have ht := ih (fun x hx => h x (by simp [hx]))
      simp only [utf8Encode, List.map_cons, List.flatten_cons] at ht ⊢
      rw [ht, utf8EncodeChar, if_pos hb]
      rfl

theorem decodeUtf8Replace_ascii_aux (n : Nat) :
    ∀ l : List Nat, l.length ≤ n → (∀ b ∈ l, b < 128) →
      decodeUtf8Replace l = l := by
  induction n with
  | zero =>
      intro l hlen _
      have hl : l = [] := List.eq_nil_of_length_eq_zero (Nat.le_zero.mp hlen)
      subst hl
      simp [decodeUtf8Replace]
  | succ n ih =>
      intro l hlen hascii
      match l with
      | [] => simp [decodeUtf8Replace]
      | b :: t =>
          have hb : b < 128 := hascii b (by simp)
          have hseq : utf8SeqLen (b :: t) = 1 := by simp [utf8SeqLen, hb]
          have hcp : utf8Cp (b :: t) = b := by simp [utf8Cp, hb]
          rw [decodeUtf8Replace, hcp, hseq]
          simp only [Nat.sub_self, List.drop_zero]
          have hlt : t.length ≤ n := by
            simpa using Nat.lt_succ_iff.mp (Nat.lt_of_lt_of_le (by simp) hlen)
          rw [ih t hlt (fun x hx => hascii x (by simp [hx]))]

theorem decodeUtf8Replace_ascii (l : List Nat) (h : ∀ b ∈ l, b < 128) :
    decodeUtf8Replace l = l :=
  decodeUtf8Replace_ascii_aux l.length l le_rfl h

/-! ## Claim theorems -/

/-- C1, counterexample to the claim as stated: the metadata snapshot is
*not* a byte-for-byte copy of the raw listing response body for every
body the server may return.  For a latin-1-encoded response whose body
is the JSON object `\x7b"n":"\xe9"\x7d` (bytes below), the persisted
file holds the UTF-8 re-encoding (10 bytes, `0xE9` becomes
`0xC3 0xA9`), not the 9 raw bytes. -/
theorem c1_counterexample :
    persistedMetadataBytes TextEncoding.latin1
        [123, 34, 110, 34, 58, 34, 233, 34, 125] ≠
      [123, 34, 110, 34, 58, 34, 233, 34, 125] := by
  decide

/-- C1 (amended): the snapshot written to `_metadata.json` is the
response body decoded to text per the response's encoding and re-encoded
as UTF-8 — a decode/re-encode, not a verbatim byte copy.  It coincides
byte-for-byte with the raw body whenever that round-trip is the
identity; in particular for every ASCII body, under both codecs. -/
theorem c1_snapshot_roundtrip (enc : TextEncoding) (body : List Nat)
    (h : ∀ b ∈ body, b < 128) :
    persistedMetadataBytes enc body = body := by
  cases enc with
  | latin1 => exact utf8Encode_ascii body h
  | utf8 =>
      have hrw : persistedMetadataBytes TextEncoding.utf8 body =
          utf8Encode (decodeUtf8Replace body) := rfl
      rw [hrw, decodeUtf8Replace_ascii body h]
      exact utf8Encode_ascii body h

/-- Witness for C1: a concrete ASCII body round-trips unchanged. -/
theorem c1_witness :
    (∀ b ∈ ([123, 34, 97, 34, 58, 34, 98, 34, 125] : List Nat), b < 128) ∧
    persistedMetadataBytes TextEncoding.utf8
        [123, 34, 97, 34, 58, 34, 98, 34, 125] =
      [123, 34, 97, 34, 58, 34, 98, 34, 125] :=
  ⟨by decide, c1_snapshot_roundtrip TextEncoding.utf8 _ (by decide)⟩

/-- C3: with resume enabled and an existing destination of size `S > 0`,
the reissued GET carries exactly the header `Range: bytes=S-`, the file
is opened in append mode, and the final size is `S` plus the bytes
delivered by the ranged response; with `S = 0` or resume disabled the
file is truncate-created. -/
theorem c3_resume_range_append (S : Nat) (chunks : List Nat) (hS : 0 < S) :
    (getFileRun true true S chunks).requestHeaders =
      [("Range", "bytes=" ++ toString S ++ "-")] ∧
    (getFileRun true true S chunks).mode = WriteMode.append ∧
    (getFileRun true true S chunks).finalSize = S + chunks.sum ∧
    (∀ (destExists : Bool) (diskSize : Nat),
      (getFileRun true destExists 0 chunks).mode = WriteMode.truncate ∧
      (getFileRun false destExists diskSize chunks).mode = WriteMode.truncate) := by
  refine ⟨by simp [getFileRun], by simp [getFileRun, hS], by simp [getFileRun, hS], ?_⟩
  intro destExists diskSize
  cases destExists <;> simp [getFileRun]

/-- Witness for C3 at `S = 3` with delivered chunks of 2 and 5 bytes. -/
theorem c3_witness :
    0 < 3 ∧
    (getFileRun true true 3 [2, 5]).requestHeaders =
      [("Range", "bytes=" ++ toString 3 ++ "-")] ∧
    (getFileRun true true 3 [2, 5]).mode = WriteMode.append ∧
    (getFileRun true true 3 [2, 5]).finalSize = 3 + [2, 5].sum :=
  have h := c3_resume_range_append 3 [2, 5] (by decide)
  ⟨by decide, h.1, h.2.1, h.2.2.1⟩

/-- C4: the remote-path-to-local-components mapping is a pure
deterministic function; each component is a right-trimmed segment of the
`'/'`-split input with every empty or whitespace-only segment dropped,
and `"a//b/ /c"` maps to `["a", "b", "c"]`. -/
theorem c4_local_path_mapping (p : String) :
    splitComponents p = splitComponents p ∧
    (∀ c ∈ splitComponents p,
      ∃ s ∈ splitOnSlash p, stripTruthy s = true ∧ c = rstripStr s) ∧
    splitComponents "a//b/ /c" = ["a", "b", "c"] := by
  refine ⟨rfl, ?_, by decide⟩
  intro c hc
  simp only [splitComponents, List.mem_map, List.mem_filter] at hc
  obtain ⟨s, ⟨hs, hkeep⟩, rfl⟩ := hc
  exact ⟨s, hs, hkeep, rfl⟩

/-- Witness for C4: the component `"a"` of the example input arises from
a kept, right-trimmed segment. -/
theorem c4_witness :
    "a" ∈ splitComponents "a//b/ /c" ∧
    ∃ s ∈ splitOnSlash "a//b/ /c", stripTruthy s = true ∧ "a" = rstripStr s :=
  ⟨by decide, (c4_local_path_mapping "a//b/ /c").2.1 "a" (by decide)⟩

/-- C9: a 429 first response carrying `Retry-After: n` causes a sleep of
exactly `n` seconds before the single reissue of the same request,
independent of the configured exponential backoff factor. -/
theorem c9_retry_after_sleep (backoff backoff2 n : Nat) :
    requestWithRateLimitHandling backoff 429 (some n) =
      [RLEvent.request, RLEvent.sleep n, RLEvent.request] ∧
    requestWithRateLimitHandling backoff 429 (some n) =
      requestWithRateLimitHandling backoff2 429 (some n) := by
  simp [requestWithRateLimitHandling, handleRateLimitSleep]

/-- Witness for C9 at `Retry-After: 10` under two distinct backoff
factors. -/
theorem c9_witness :
    requestWithRateLimitHandling 1 429 (some 10) =
      [RLEvent.request, RLEvent.sleep 10, RLEvent.request] ∧
    requestWithRateLimitHandling 1 429 (some 10) =
      requestWithRateLimitHandling 7 429 (some 10) :=
  c9_retry_after_sleep 1 7 10

/-- Claim-side count `N`: file entries (carrying a `path`) on one
page. -/
def pageFileCount (l : List ItemView) : Nat :=
  (l.map (fun i => match i with
    | ItemView.fileIt (some _) _ => 1
    | _ => 0)).sum

/-- Claim-side total `T`: declared sizes of the page's file entries, an
absent size contributing 0. -/
def pageFileBytes (l : List ItemView) : Nat :=
  (l.map (fun i => match i with
    | ItemView.fileIt (some _) sz => sz.getD 0
    | _ => 0)).sum

/-- Claim-side descendant totals: the scanner's own report on each
directory entry's subtree (zero for a failing subtree). -/
def descendantStats (fs : String → Bool) (output : String)
    (l : List ItemView) : Nat × Nat :=
  (l.map (fun i => match i with
    | ItemView.dirIt (some _) sub => (scanNode fs output false false sub).getD (0, 0)
    | _ => (0, 0))).sum

theorem scanNode_ofItems (fs : String → Bool) (output : String)
    (l : List ItemView) :
    scanNode fs output false false (ofItems l) =
      some (pageFileCount l + (descendantStats fs output l).1,
            pageFileBytes l + (descendantStats fs output l).2) := by
  induction l with
  | nil => simp [ofItems, scanNode, pageFileCount, pageFileBytes, descendantStats]
  | cons i t ih =>
      cases i with
      | fileIt p sz =>
          cases p with
          | none =>
              simp [ofItems, scanNode, ih, pageFileCount, pageFileBytes,
                descendantStats]
          | some pp =>
              simp [ofItems, scanNode, ih, pageFileCount, pageFileBytes,
                descendantStats, Prod.ext_iff]
              omega
      | dirIt p sub =>
          cases p with
          | none =>
              simp [ofItems, scanNode, ih, pageFileCount, pageFileBytes,
                descendantStats]
          | some pp =>
              simp [ofItems, scanNode, ih, pageFileCount, pageFileBytes,
                descendantStats, Prod.ext_iff]
              omega
      | otherIt p =>
          simp [ofItems, scanNode, ih, pageFileCount, pageFileBytes,
            descendantStats]

/-- C2: on a page of `N` file entries with total declared size `T`
(absent sizes contributing 0) plus directory entries, with metadataOnly
false and updateOnly off (so no entry is skipped by the
updateOnly-and-exists rule), the scanner reports
`N + Σ descendant counts` files and `T + Σ descendant sizes` bytes;
the result is invariant under permutation of the page's entries; and a
directory entry whose subtree fetch fails contributes zero to both
totals. -/
theorem c2_scanner_stats (fs : String → Bool) (output : String)
    (l l2 : List ItemView) (hperm : l.Perm l2) :
    scanNode fs output false false (ofItems l) =
      some (pageFileCount l + (descendantStats fs output l).1,
            pageFileBytes l + (descendantStats fs output l).2) ∧
    scanNode fs output false false (ofItems l) =
      scanNode fs output false false (ofItems l2) ∧
    (∀ (update nofiles : Bool) (p : String) (rest : Node),
      scanNode fs output update nofiles
          (Node.pageDir (some p) Node.fetchFail rest) =
        scanNode fs output update nofiles rest) := by
  refine ⟨scanNode_ofItems fs output l, ?_, ?_⟩
  · rw [scanNode_ofItems fs output l, scanNode_ofItems fs output l2]
    have hcount : pageFileCount l = pageFileCount l2 :=
      (hperm.map _).sum_eq
    have hbytes : pageFileBytes l = pageFileBytes l2 :=
      (hperm.map _).sum_eq
    have hdesc : descendantStats fs output l = descendantStats fs output l2 :=
      (hperm.map _).sum_eq
    rw [pageFileCount, pageFileBytes, descendantStats] at *
    rw [hcount, hbytes, hdesc]
  · intro update nofiles p rest
    cases hrest : scanNode fs output update nofiles rest <;>
      simp [scanNode, hrest]

/-- Witness for C2: a concrete two-entry page and its swap. -/
theorem c2_witness :
    scanNode (fun _ => false) "out" false false
        (ofItems [ItemView.fileIt (some "a/f1.txt") (some 100),
                  ItemView.dirIt (some "a/d") Node.noItems]) =
      some (pageFileCount [ItemView.fileIt (some "a/f1.txt") (some 100),
                           ItemView.dirIt (some "a/d") Node.noItems] +
              (descendantStats (fun _ => false) "out"
                [ItemView.fileIt (some "a/f1.txt") (some 100),
                 ItemView.dirIt (some "a/d") Node.noItems]).1,
            pageFileBytes [ItemView.fileIt (some "a/f1.txt") (some 100),
                           ItemView.dirIt (some "a/d") Node.noItems] +
              (descendantStats (fun _ => false) "out"
                [ItemView.fileIt (some "a/f1.txt") (some 100),
                 ItemView.dirIt (some "a/d") Node.noItems]).2) ∧
    scanNode (fun _ => false) "out" false false
        (ofItems [ItemView.fileIt (some "a/f1.txt") (some 100),
                  ItemView.dirIt (some "a/d") Node.noItems]) =
      scanNode (fun _ => false) "out" false false
        (ofItems [ItemView.dirIt (some "a/d") Node.noItems,
                  ItemView.fileIt (some "a/f1.txt") (some 100)]) :=
  have h := c2_scanner_stats (fun _ => false) "out"
    [ItemView.fileIt (some "a/f1.txt") (some 100),
     ItemView.dirIt (some "a/d") Node.noItems]
    [ItemView.dirIt (some "a/d") Node.noItems,
     ItemView.fileIt (some "a/f1.txt") (some 100)]
    (List.Perm.swap _ _ _)
  ⟨h.1, h.2.1⟩

theorem walkItems_pageDir_eq (fs : String → Bool) (output : String)
    (update nofiles : Bool) (pp c : String) (sub r : Node) :
    walkItems fs output update nofiles pp (Node.pageDir (some c) sub r) =
      WEvent.mkdir (localTargetPath output pp) ::
        ((walkNode fs output update nofiles true c sub).getD
            [WEvent.subdirFailed c] ++
          walkItems fs output update nofiles pp r) := by
  cases sub <;> simp [walkItems, walkNode]

/-- C5: for every visited directory — all flag settings, including
metadataOnly mode and pages with zero entries — the visit's trace starts
with the directory creation followed immediately by the `_metadata.json`
write, before any child event; and every child-directory entry's
processing is exactly a nested visit (so the same prefix shape holds at
every level). -/
theorem c5_metadata_first (fs : String → Bool) (output : String)
    (update nofiles iterative : Bool) (path : String) (n : Node)
    (h : n ≠ Node.fetchFail) :
    (∃ rest, walkNode fs output update nofiles iterative path n =
        some (WEvent.mkdir (localTargetPath output path) ::
              WEvent.wroteMeta (localTargetPath output path) :: rest)) ∧
    (∀ (pp c : String) (sub restN : Node),
      walkItems fs output update nofiles pp (Node.pageDir (some c) sub restN) =
        WEvent.mkdir (localTargetPath output pp) ::
          ((walkNode fs output update nofiles true c sub).getD
              [WEvent.subdirFailed c] ++
            walkItems fs output update nofiles pp restN)) := by
  refine ⟨?_, fun pp c sub restN => walkItems_pageDir_eq fs output update nofiles pp c sub restN⟩
  cases n with
  | fetchFail => exact absurd rfl h
  | noItems => exact ⟨_, rfl⟩
  | pageNil => exact ⟨_, rfl⟩
  | pageFile p sz rest => exact ⟨_, rfl⟩
  | pageDir p sub rest => exact ⟨_, rfl⟩
  | pageOther p rest => exact ⟨_, rfl⟩

/-- Witness for C5: the metadata write happens for an empty directory in
metadataOnly mode. -/
theorem c5_witness :
    Node.noItems ≠ Node.fetchFail ∧
    ∃ rest, walkNode (fun _ => false) "out" false true true "a" Node.noItems =
      some (WEvent.mkdir (localTargetPath "out" "a") ::
            WEvent.wroteMeta (localTargetPath "out" "a") :: rest) :=
  ⟨by simp,
   (c5_metadata_first (fun _ => false) "out" false true true "a" Node.noItems
      (by simp)).1⟩

theorem walkItems_no_existing_download (fs : String → Bool) (output : String)
    (nofiles : Bool) (n : Node) :
    ∀ parentPath p dest,
      WEvent.download p dest ∈ walkItems fs output true nofiles parentPath n →
      fs dest = false := by
  induction n with
  | fetchFail => intro _ _ _ h; simp [walkItems] at h
  | noItems => intro _ _ _ h; simp [walkItems] at h
  | pageNil => intro _ _ _ h; simp [walkItems] at h
  | pageFile q sz r ihr =>
      intro parentPath p dest h
      cases q with
      | none => exact ihr _ _ _ (by simpa [walkItems] using h)
      | some pp =>
          by_cases hn : nofiles
          · exact ihr _ _ _ (by simpa [walkItems, hn] using h)
          · have hnf : nofiles = false := by simpa using hn
            subst hnf
            by_cases hf : fs (localTargetPath output pp)
            · exact ihr _ _ _ (by simpa [walkItems, hf] using h)
            · have hff : fs (localTargetPath output pp) = false := by simpa using hf
              simp only [walkItems, Bool.false_eq_true, if_false, hff,
                Bool.false_and, List.nil_append, List.mem_append,
                List.mem_singleton] at h
              rcases h with h1 | h2
              · cases h1
                exact hff
              · exact ihr _ _ _ h2
  | pageDir q sub r ihsub ihr =>
      intro parentPath p dest h
      cases q with
      | none => exact ihr _ _ _ (by simpa [walkItems] using h)
      | some pp =>
          rw [walkItems_pageDir_eq] at h
          simp only [List.mem_cons, List.mem_append] at h
          rcases h with h0 | hin | h2
          · exact absurd h0 (by simp)
          · cases sub with
            | fetchFail => simp [walkNode] at hin
            | noItems => exact ihsub _ _ _ (by simpa [walkNode] using hin)
            | pageNil => exact ihsub _ _ _ (by simpa [walkNode] using hin)
            | pageFile a b c => exact ihsub _ _ _ (by simpa [walkNode] using hin)
            | pageDir a b c => exact ihsub _ _ _ (by simpa [walkNode] using hin)
            | pageOther a b => exact ihsub _ _ _ (by simpa [walkNode] using hin)
          · exact ihr _ _ _ h2
  | pageOther q r ihr =>
      intro parentPath p dest h
      exact ihr _ _ _ (by simpa [walkItems] using h)

/-- C6: during a recursive sync with updateOnly set, the downloader is
never invoked for a file entry whose mapped local destination exists —
every `download` event in the walk's trace targets a non-existing
destination (existence alone decides the skip; no other check occurs in
the model). -/
theorem c6_update_only_skip (fs : String → Bool) (output : String)
    (nofiles iterative : Bool) (path : String) (n : Node) (p dest : String)
    (h : WEvent.download p dest ∈
      (walkNode fs output true nofiles iterative path n).getD []) :
    fs dest = false := by
  cases iterative with
  | false =>
      cases n <;> simp [walkNode, walkItems] at h
  | true =>
      cases n with
      | fetchFail => simp [walkNode] at h
      | noItems =>
          simp [walkNode, walkItems] at h
      | pageNil =>
          simp [walkNode, walkItems] at h
      | pageFile a b c =>
          simp only [walkNode, Option.getD_some, List.mem_cons] at h
          rcases h with h0 | h0 | h0
          · exact absurd h0 (by simp)
          · exact absurd h0 (by simp)
          · exact walkItems_no_existing_download fs output nofiles _ _ _ _
              (by simpa using h0)
      | pageDir a b c =>
          simp only [walkNode, Option.getD_some, List.mem_cons] at h
          rcases h with h0 | h0 | h0
          · exact absurd h0 (by simp)
          · exact absurd h0 (by simp)
          · exact walkItems_no_existing_download fs output nofiles _ _ _ _
              (by simpa using h0)
      | pageOther a b =>
          simp only [walkNode, Option.getD_some, List.mem_cons] at h
          rcases h with h0 | h0 | h0
          · exact absurd h0 (by simp)
          · exact absurd h0 (by simp)
          · exact walkItems_no_existing_download fs output nofiles _ _ _ _
              (by simpa using h0)

/-- Witness for C6: a concrete walk whose single download event targets
a destination the filesystem predicate reports absent. -/
theorem c6_witness :
    WEvent.download "a/f1.txt" (localTargetPath "out" "a/f1.txt") ∈
      (walkNode (fun _ => false) "out" true false true ""
        (ofItems [ItemView.fileIt (some "a/f1.txt") (some 100)])).getD [] ∧
    (fun _ : String => false) (localTargetPath "out" "a/f1.txt") = false :=
  ⟨by decide,
   c6_update_only_skip (fun _ => false) "out" false true ""
     (ofItems [ItemView.fileIt (some "a/f1.txt") (some 100)])
     "a/f1.txt" (localTargetPath "out" "a/f1.txt") (by decide)⟩

/-- C7, counterexample to the claim as stated: in metadataOnly mode
(`nofiles = true`) the orchestrator invokes the Walker without ever
running the Stats Scanner, so "the Walker is invoked only when the scan
reports at least one file or the scan itself fails" is false for that
Sync invocation. -/
theorem c7_counterexample :
    ¬ walkJustified (storeEvents (fun _ => false) "out" false true Node.noItems) := by
  decide

/-- C7 (amended): when metadataOnly is false the Scanner runs before the
Walker — the trace's first event is a scan result or a scan failure —
and the Walker is invoked exactly when the scan fails or reports at
least one outstanding file (so a zero report exits early, with updateOnly
set or not); when metadataOnly is true the Scanner is skipped and the
Walker always runs. -/
theorem c7_scan_then_walk (fs : String → Bool) (metapath : String)
    (update : Bool) (root : Node) :
    ((storeEvents fs metapath update false root).head? = some SEvent.scanFailed ∨
      ∃ c t, (storeEvents fs metapath update false root).head? =
        some (SEvent.scanned c t)) ∧
    (SEvent.walked ∈ storeEvents fs metapath update false root ↔
      (scanNode fs metapath update false root = none ∨
        ∃ c t, scanNode fs metapath update false root = some (c, t) ∧ 0 < c)) ∧
    storeEvents fs metapath update true root = [SEvent.walked] := by
  refine ⟨?_, ?_, by simp [storeEvents]⟩
  · unfold storeEvents
    cases hscan : scanNode fs metapath update false root with
    | none => simp
    | some ct =>
        obtain ⟨c, t⟩ := ct
        by_cases hc : 0 < c <;> simp [hc]
  · unfold storeEvents
    cases hscan : scanNode fs metapath update false root with
    | none => simp
    | some ct =>
        obtain ⟨c, t⟩ := ct
        by_cases hc : 0 < c
        · simp [hc]
        · simp [hc]

/-- Witness for C7: a one-file tree makes the scan report first and the
walker run. -/
theorem c7_witness :
    ((storeEvents (fun _ => false) "out" false false
        (ofItems [ItemView.fileIt (some "a/f1.txt") (some 100)])).head? =
          some SEvent.scanFailed ∨
      ∃ c t, (storeEvents (fun _ => false) "out" false false
        (ofItems [ItemView.fileIt (some "a/f1.txt") (some 100)])).head? =
          some (SEvent.scanned c t)) ∧
    storeEvents (fun _ => false) "out" false true
        (ofItems [ItemView.fileIt (some "a/f1.txt") (some 100)]) =
      [SEvent.walked] :=
  have h := c7_scan_then_walk (fun _ => false) "out" false
    (ofItems [ItemView.fileIt (some "a/f1.txt") (some 100)])
  ⟨h.1, h.2.2⟩

/-- C8, counterexample to the claim as stated: a FullFetch with metadata
saving enabled against a resource whose download-link response lacks
`href` does raise the fatal error (`ResourceError`), **and yet** an
output file — the metadata snapshot — has already been created, so "no
output file is created by the operation" fails. -/
theorem c8_counterexample :
    FEvent.raisedResourceError ∈
      fullTrace "https://x/d/abc" (some "out") none true none ∧
    ¬ ((fullTrace "https://x/d/abc" (some "out") none true none).all
        (fun e => !createsFile e) = true) := by
  decide

/-- C8 (amended): a FullFetch whose download-link response has no `href`
raises the fatal `ResourceError` as its last action, never invokes the
downloader (no retry, no artifact), and the only file the operation may
have created is the metadata snapshot, written only when metadata saving
was requested. -/
theorem c8_missing_href (url : String) (output filename : Option String)
    (metadata : Bool) :
    (∃ pre, fullTrace url output filename metadata none =
      pre ++ [FEvent.raisedResourceError]) ∧
    (∀ h fp fn, FEvent.downloadInvoked h fp fn ∉
      fullTrace url output filename metadata none) ∧
    (∀ e ∈ fullTrace url output filename metadata none, createsFile e = true →
      e = FEvent.wroteMetaFile (pathJoin (output.getD "") "_metadata.json") ∧
        metadata = true) := by
  refine ⟨?_, ?_, ?_⟩
  · refine ⟨(if strTruthy output then [FEvent.madeOutputDir (output.getD "")] else []) ++
      (if metadata && strTruthy output then
        [FEvent.wroteMetaFile (pathJoin (output.getD "") "_metadata.json")]
      else []), ?_⟩
    simp [fullTrace]
  · intro h fp fn
    by_cases hm : metadata <;> by_cases ho : strTruthy output <;>
      simp [fullTrace, hm, ho]
  · intro e he hc
    by_cases hm : metadata
    · by_cases ho : strTruthy output
      · simp [fullTrace, hm, ho] at he
        rcases he with he | he | he
        · subst he; simp [createsFile] at hc
        · subst he; exact ⟨rfl, hm⟩
        · subst he; simp [createsFile] at hc
      · simp [fullTrace, hm, ho] at he
        subst he; simp [createsFile] at hc
    · by_cases ho : strTruthy output
      · simp [fullTrace, hm, ho] at he
        rcases he with he | he <;> (subst he; simp [createsFile] at hc)
      · simp [fullTrace, hm, ho] at he
        subst he; simp [createsFile] at hc

/-- Witness for C8 at a concrete input: the trace ends in the
`ResourceError`. -/
theorem c8_witness :
    ∃ pre, fullTrace "https://x/d/abc" (some "out") none true none =
      pre ++ [FEvent.raisedResourceError] :=
  (c8_missing_href "https://x/d/abc" (some "out") none true).1

/-- C10: a FullFetch with no explicit filename always hands the fixed
name `dump.zip` to the downloader — every download invocation in its
trace uses that name, for single files and directories alike — and with
an explicit filename the downloader's destination is independent of any
`Content-Disposition` header, so that detection path is never exercised
by FullFetch. -/
theorem c10_fullfetch_dump_zip (url : String) (output : Option String)
    (metadata : Bool) (linkHref : Option String) :
    (∀ h fp fn, FEvent.downloadInvoked h fp fn ∈
        fullTrace url output none metadata linkHref → fn = "dump.zip") ∧
    (∀ (fp cd cd2 : Option String) (u : String),
      resolveDownloadDest fp (some "dump.zip") cd u =
        resolveDownloadDest fp (some "dump.zip") cd2 u) := by
  constructor
  · intro h fp fn hmem
    cases linkHref with
    | none =>
        by_cases hm : metadata <;> by_cases ho : strTruthy output <;>
          simp [fullTrace, hm, ho] at hmem
    | some href =>
        by_cases hm : metadata <;> by_cases ho : strTruthy output <;>
          simp [fullTrace, hm, ho] at hmem <;> exact hmem.2.2
  · intro fp cd cd2 u
    cases fp <;> rfl

/-- Witness for C10: the download event of a concrete FullFetch carries
the name `dump.zip`. -/
theorem c10_witness :
    FEvent.downloadInvoked "http://dl/x" "out" "dump.zip" ∈
      fullTrace "https://x/d/abc" (some "out") none false (some "http://dl/x") ∧
    "dump.zip" = "dump.zip" :=
  ⟨by decide,
   (c10_fullfetch_dump_zip "https://x/d/abc" (some "out") false
      (some "http://dl/x")).1 "http://dl/x" "out" "dump.zip" (by decide)⟩

end Ydiskarc
